import Mathlib

/-!
Shallow embedding of `src/datasets/four_env_synthetic_folktables.py`:
the Four-Environment Folktables preparation pipeline
(`prepare_four_env_folktables`) and the dataset constructor dispatch.

Conventions of the embedding:

* numpy / torch arrays become `List Nat` (index, label and group arrays)
  and `List (List Int)` (feature matrices); fancy indexing `a[idx]`
  becomes `npIndex`.
* The pseudo-random generators are modelled by an explicit state of type
  `Nat` stepped by a linear congruential generator `lcg`; `np.random.seed n`
  replaces the state by a value depending only on `n` (`npSeed`).
  `np.random.choice(xs, size := k, replace := False)` is modelled as a
  Fisher-Yates shuffle followed by `take k`, failing (`none`) exactly when
  `k` exceeds the population size, as numpy does.  `np.random.permutation n`
  and `torch.randperm n` are the same shuffle applied to `List.range n`;
  the torch generator has its own independently threaded state, mirroring
  that it is a generator distinct from numpy's.
* `int(0.8 * n)` (line 178 of the source) is embedded as `4 * n / 5`:
  for every `n` below `2 ^ 50` the double-precision product `0.8 * n`
  truncates to exactly `4 * n / 5` (the excess of the stored constant
  over `4 / 5` is `0.2 * 2 ^ (-52)`, which never reaches the half-ulp
  boundary of the product), so the floor form is faithful for all
  reachable environment sizes.
* The filesystem is a record `FS` of optional persisted splits; the
  exceptions become `Except PrepError`, with `insufficientData` for the
  `ValueError` raised by `np.random.choice` (line 107) and
  `missingDependency` for the `FileNotFoundError` raised when the sibling
  test artifact is absent (line 245); the constructor names follow the
  specification's error vocabulary for these two conditions.
-/

namespace FourEnv

/-- One step of the linear congruential generator modelling the global
pseudo-random state. -/
def lcg (s : Nat) : Nat := (1103515245 * s + 12345) % 2147483648

/-- Model of `np.random.seed n`: the global generator state is replaced by
a value that depends only on the seed. -/
def npSeed (n : Nat) : Nat := n

/-- Fuelled Fisher-Yates shuffle: draw a position from the current state,
emit the element there, recurse on the remainder.  Called with
`fuel = xs.length`. -/
def fyGo : Nat → Nat → List Nat → List Nat × Nat
  | 0, s, _ => ([], s)
  | fuel + 1, s, xs =>
    if xs.length = 0 then ([], s)
    else
      let s2 := lcg s
      let i := s2 % xs.length
      let rest := fyGo fuel s2 (xs.eraseIdx i)
      (xs.getD i 0 :: rest.1, rest.2)

/-- A full random shuffle of a list, threading the generator state. -/
def fyShuffle (s : Nat) (xs : List Nat) : List Nat × Nat :=
  fyGo xs.length s xs

/-- The successful branch of `np.random.choice(xs, size := k,
replace := False)`: shuffle and keep the first `k` elements. -/
def npTake (s : Nat) (xs : List Nat) (k : Nat) : List Nat × Nat :=
  ((fyShuffle s xs).1.take k, (fyShuffle s xs).2)

/-- Model of `np.random.choice(xs, size := k, replace := False)` (lines
107-110): numpy raises `ValueError` exactly when the requested sample size
exceeds the population, and otherwise draws `k` distinct elements. -/
def npChoice (s : Nat) (xs : List Nat) (k : Nat) : Option (List Nat × Nat) :=
  if xs.length < k then none else some (npTake s xs k)

/-- Fancy indexing `a[idx]` over a list, with a default for out-of-range
positions (never hit on the pipeline's in-range index arrays). -/
def npIndex (xs : List α) (idx : List Nat) (d : α) : List α :=
  idx.map (fun i => xs.getD i d)

/-- Model of `np.where((group == a) & (labels == b))[0]` (lines 96-99):
the increasing list of positions whose group and label match. -/
def idxWhere (group labels : List Nat) (a b : Nat) : List Nat :=
  (List.range group.length).filter
    (fun i => group.getD i 0 == a && labels.getD i 0 == b)

/-- Model of `torch.where(env_labels == k)[0]` (line 174): the increasing
list of positions carrying environment id `k`. -/
def torchWhere (env_labels : List Nat) (k : Nat) : List Nat :=
  (List.range env_labels.length).filter (fun p => env_labels.getD p 0 == k)

/-- Model of `torch.unique` (line 168): the sorted list of distinct
values. -/
def uniqueSorted (l : List Nat) : List Nat :=
  l.dedup.mergeSort (fun a b => a ≤ b)

/-- The fixed environment-id table of specification section 3:
`(male, low) = 0`, `(male, high) = 1`, `(female, low) = 2`,
`(female, high) = 3`; every other combination is out of the table's
domain and kept at the default `0`. -/
def envMap (group label : Nat) : Nat :=
  if group = 1 ∧ label = 0 then 0
  else if group = 1 ∧ label = 1 then 1
  else if group = 2 ∧ label = 0 then 2
  else if group = 2 ∧ label = 1 then 3
  else 0

/-- The per-record branch of the test remapping loop (lines 215-226):
`test_env_labels` is initialised to zeros and the `if`/`elif` chain has no
final `else`, so an unmatched (gender, income) pair keeps id `0`.  The
gender comes from the feature matrix (a float column, hence `Int` here)
and the income from the label vector. -/
def envOf (gender : Int) (income : Nat) : Nat :=
  if gender = 1 ∧ income = 0 then 0
  else if gender = 1 ∧ income = 1 then 1
  else if gender = 2 ∧ income = 0 then 2
  else if gender = 2 ∧ income = 1 then 3
  else 0

/-- The test reconciliation loop (lines 210-226): recompute every test
record's environment id from its own SEX feature (column 3) and its own
label.  The sibling's environment labels are not an input: the source
unpacks them into `_` (line 208). -/
def remapTestEnvs (test_features : List (List Int)) (test_labels : List Nat) :
    List Nat :=
  (List.range test_features.length).map
    (fun i => envOf ((test_features.getD i []).getD 3 0) (test_labels.getD i 0))

/-- The environment partitioner (lines 96-138): bucket the records by
(group, label), subsample each bucket to its fixed target size with the
ambient numpy state, set the seed to 42, then shuffle the concatenated
index and environment-label arrays by one common permutation.  Returns
`none` when some bucket is smaller than its target (the
`InsufficientDataError` condition), else the pool and the final numpy
state. -/
def buildPool (group labels : List Nat) (s : Nat) :
    Option ((List Nat × List Nat) × Nat) :=
  let male_low_income_idx := idxWhere group labels 1 0
  let male_high_income_idx := idxWhere group labels 1 1
  let female_low_income_idx := idxWhere group labels 2 0
  let female_high_income_idx := idxWhere group labels 2 1
  match npChoice s male_low_income_idx 4000 with
  | none => none
  | some r1 =>
    match npChoice r1.2 male_high_income_idx 16000 with
    | none => none
    | some r2 =>
      match npChoice r2.2 female_low_income_idx 16000 with
      | none => none
      | some r3 =>
        match npChoice r3.2 female_high_income_idx 4000 with
        | none => none
        | some r4 =>
          -- each `rN` is a drawn subsample paired with the numpy state it
          -- leaves behind.  Line 116: `np.random.seed(42)` runs only after
          -- the four subsampling draws, discarding the state they produced.
          let s5 := npSeed 42
          let all_train_indices := r1.1 ++ r2.1 ++ r3.1 ++ r4.1
          let env_labels :=
            List.replicate r1.1.length 0 ++ List.replicate r2.1.length 1 ++
            List.replicate r3.1.length 2 ++ List.replicate r4.1.length 3
          let sh := fyShuffle s5 (List.range all_train_indices.length)
          some ((npIndex all_train_indices sh.1 0, npIndex env_labels sh.1 0),
                sh.2)

/-- The per-environment loop of the stratified splitter (lines 172-182):
for each environment id in `ks`, shuffle that environment's positions with
the torch generator and split off the leading `int(0.8 * n)` positions for
train.  Returns the per-environment train blocks, val blocks, and the
final torch state. -/
def splitEnvs (env_labels : List Nat) :
    List Nat → Nat → List (List Nat) × List (List Nat) × Nat
  | [], s => ([], [], s)
  | k :: ks, s =>
    let env_indices := torchWhere env_labels k
    let n_env_samples := env_indices.length
    let train_size := 4 * n_env_samples / 5
    let sh := fyShuffle s (List.range n_env_samples)
    let shuffled_env_indices := npIndex env_indices sh.1 0
    let rest := splitEnvs env_labels ks sh.2
    (shuffled_env_indices.take train_size :: rest.1,
     shuffled_env_indices.drop train_size :: rest.2.1,
     rest.2.2)

/-- The stratified splitter (lines 168-190): split every environment
separately, concatenate the per-environment blocks, and give each of the
two concatenations one final shuffle.  Returns the train positions, the
val positions, and the final torch state. -/
def stratifiedSplit (env_labels : List Nat) (s : Nat) :
    List Nat × List Nat × Nat :=
  let parts := splitEnvs env_labels (uniqueSorted env_labels) s
  let cat_train := parts.1.flatten
  let cat_val := parts.2.1.flatten
  let sh1 := fyShuffle parts.2.2 (List.range cat_train.length)
  let sh2 := fyShuffle sh1.2 (List.range cat_val.length)
  (npIndex cat_train sh1.1 0, npIndex cat_val sh2.1 0, sh2.2)

/-- One persisted split: parallel feature, label and environment-id
arrays. -/
structure Split where
  features : List (List Int)
  labels : List Nat
  envs : List Nat

/-- The filesystem state the pipeline interacts with: the three output
artifacts of this dataset and the sibling dataset's test artifact at
`synthetic_folktables/test.pt`. -/
structure FS where
  train : Option Split
  val : Option Split
  test : Option Split
  siblingTest : Option Split

/-- The two fatal preparation errors of specification section 7:
`insufficientData` models the `ValueError` of `np.random.choice` when a
bucket is smaller than its target, `missingDependency` the
`FileNotFoundError` for the absent sibling test artifact, carrying the
reported path. -/
inductive PrepError where
  | insufficientData : PrepError
  | missingDependency : String → PrepError

/-- The preparation orchestrator `prepare_four_env_folktables` (lines
67-254): return unchanged when all three artifacts exist; otherwise build
the pool, split it, reconcile the test split from the sibling artifact,
and persist all three splits.  The raw `(features, labels, group)` arrays
are the data of the external provider (lines 88-92), passed in as
arguments; `npS` and `torchS` are the ambient numpy and torch generator
states at entry. -/
def prepare_four_env_folktables (root : String) (features : List (List Int))
    (labels group : List Nat) (npS torchS : Nat) (fs : FS) :
    Except PrepError FS :=
  if fs.train.isSome && fs.val.isSome && fs.test.isSome then .ok fs
  else
    match buildPool group labels npS with
    | none => .error .insufficientData
    | some pool =>
      let all_train_indices := pool.1.1
      let env_labels := pool.1.2
      let train_features := npIndex features all_train_indices []
      let train_labels := npIndex labels all_train_indices 0
      let split := stratifiedSplit env_labels torchS
      let final_train_idx := split.1
      let final_val_idx := split.2.1
      let train_data : Split :=
        ⟨npIndex train_features final_train_idx [],
         npIndex train_labels final_train_idx 0,
         npIndex env_labels final_train_idx 0⟩
      let val_data : Split :=
        ⟨npIndex train_features final_val_idx [],
         npIndex train_labels final_val_idx 0,
         npIndex env_labels final_val_idx 0⟩
      match fs.siblingTest with
      | none =>
        .error (.missingDependency (root ++ "/synthetic_folktables/test.pt"))
      | some sib =>
        let test_env_labels := remapTestEnvs sib.features sib.labels
        let test_data : Split := ⟨sib.features, sib.labels, test_env_labels⟩
        .ok { fs with train := some train_data, val := some val_data,
                      test := some test_data }

/-- The artifact base names the preparation checks for (line 69) and
writes (lines 249-251). -/
def preparedArtifactNames : List String := ["train.pt", "val.pt", "test.pt"]

/-- The env-argument dispatch of the dataset constructor (lines 42-47):
the three persisted split names load themselves, `all_train` is accepted
and routed to an `all_train` artifact, and anything else raises
`RuntimeError` with the message of line 47. -/
def selectEnvArtifact (env : String) : Except String String :=
  if ["train", "val", "test"].contains env then .ok env
  else if env = "all_train" then .ok "all_train"
  else .error (env ++ " env unknown. Valid envs are train, val, test, and all_train")

/-- Sufficiency of the raw data: every (group, label) bucket holds at
least its fixed target count (specification section 3's pool invariant). -/
def bucketsSufficient (group labels : List Nat) : Prop :=
  4000 ≤ (idxWhere group labels 1 0).length ∧
  16000 ≤ (idxWhere group labels 1 1).length ∧
  16000 ≤ (idxWhere group labels 2 0).length ∧
  4000 ≤ (idxWhere group labels 2 1).length

/-- The first subsample draw of the successful path (line 107): 4000
male-low-income indices, drawn with the ambient numpy state `s`. -/
def draw_ml (group labels : List Nat) (s : Nat) : List Nat × Nat :=
  npTake s (idxWhere group labels 1 0) 4000

/-- The second subsample draw (line 108): 16000 male-high-income indices. -/
def draw_mh (group labels : List Nat) (s : Nat) : List Nat × Nat :=
  npTake (draw_ml group labels s).2 (idxWhere group labels 1 1) 16000

/-- The third subsample draw (line 109): 16000 female-low-income indices. -/
def draw_fl (group labels : List Nat) (s : Nat) : List Nat × Nat :=
  npTake (draw_mh group labels s).2 (idxWhere group labels 2 0) 16000

/-- The fourth subsample draw (line 110): 4000 female-high-income
indices. -/
def draw_fh (group labels : List Nat) (s : Nat) : List Nat × Nat :=
  npTake (draw_fl group labels s).2 (idxWhere group labels 2 1) 4000

/-- The concatenated index array of line 125, before the pool shuffle. -/
def allPre (group labels : List Nat) (s : Nat) : List Nat :=
  (draw_ml group labels s).1 ++ (draw_mh group labels s).1 ++
  (draw_fl group labels s).1 ++ (draw_fh group labels s).1

/-- The concatenated environment-label array of lines 128-133, before the
pool shuffle. -/
def envPre (group labels : List Nat) (s : Nat) : List Nat :=
  List.replicate (draw_ml group labels s).1.length 0 ++
  List.replicate (draw_mh group labels s).1.length 1 ++
  List.replicate (draw_fl group labels s).1.length 2 ++
  List.replicate (draw_fh group labels s).1.length 3

/-- The pool shuffle of line 136: a permutation drawn from the freshly
seeded generator, so independent of the ambient state `s` except through
the length of `allPre`. -/
def poolShuffle (group labels : List Nat) (s : Nat) : List Nat × Nat :=
  fyShuffle (npSeed 42) (List.range (allPre group labels s).length)

/-- A concrete raw group array of 40000 records: positions below 20000 are
male (code 1), the rest female (code 2). -/
def cGroup : List Nat :=
  (List.range 40000).map (fun i => if i < 20000 then 1 else 2)

/-- A concrete raw label array matching `cGroup`: each (group, label)
bucket holds exactly its target count (4000 male-low, 16000 male-high,
16000 female-low, 4000 female-high). -/
def cLabels : List Nat :=
  (List.range 40000).map
    (fun i => if i < 4000 then 0 else if i < 20000 then 1 else
              if i < 36000 then 0 else 1)

/-- A concrete sibling test split with one record whose SEX column is 1
and label 1, but whose stored environment id (7) disagrees with the
remapping table. -/
def cSibling : Split := ⟨[[20, 100, 40, 1, 30]], [1], [7]⟩

/-- An initial filesystem state: nothing prepared, sibling artifact
present. -/
def cFS : FS := ⟨none, none, none, some cSibling⟩

/-- An initial filesystem state with the sibling artifact absent. -/
def cFSNoSibling : FS := ⟨none, none, none, none⟩

/-- A filesystem state where all three artifacts already exist. -/
def cFSPrepared : FS :=
  ⟨some ⟨[], [], []⟩, some ⟨[], [], []⟩, some ⟨[], [], []⟩, some cSibling⟩

theorem fyGo_perm : ∀ (fuel s : Nat) (xs : List Nat), xs.length = fuel →
    (fyGo fuel s xs).1.Perm xs := by
  intro fuel
  induction fuel with
  | zero =>
    intro s xs h
    rw [List.length_eq_zero] at h
    subst h
    simp [fyGo]
  | succ n ih =>
    intro s xs h
    have hne : ¬ xs.length = 0 := by omega
    have hpos : 0 < xs.length := Nat.pos_of_ne_zero hne
    have hi : lcg s % xs.length < xs.length := Nat.mod_lt _ hpos
    have herase : (xs.eraseIdx (lcg s % xs.length)).length = n := by
      rw [List.length_eraseIdx, if_pos hi]
      omega
    have hperm : xs.Perm
        (xs.getD (lcg s % xs.length) 0 :: xs.eraseIdx (lcg s % xs.length)) := by
      rw [List.getD_eq_getElem _ _ hi, List.eraseIdx_eq_take_drop_succ]
      conv_lhs => rw [← List.take_append_drop (lcg s % xs.length) xs,
        ← List.getElem_cons_drop xs _ hi]
      exact List.perm_middle
    have hrec := ih (lcg s) (xs.eraseIdx (lcg s % xs.length)) herase
    simp only [fyGo, if_neg hne]
    exact (hrec.cons (xs.getD (lcg s % xs.length) 0)).trans hperm.symm

theorem fyShuffle_perm (s : Nat) (xs : List Nat) :
    (fyShuffle s xs).1.Perm xs :=
  fyGo_perm xs.length s xs rfl

theorem fyShuffle_length (s : Nat) (xs : List Nat) :
    (fyShuffle s xs).1.length = xs.length :=
  (fyShuffle_perm s xs).length_eq

theorem fyShuffle_getD_zero (s : Nat) (xs : List Nat) (d : Nat)
    (h : xs ≠ []) :
    (fyShuffle s xs).1.getD 0 d = xs.getD (lcg s % xs.length) 0 := by
  have hne : ¬ xs.length = 0 := by
    simpa [List.length_eq_zero] using h
  obtain ⟨n, hn⟩ : ∃ n, xs.length = n + 1 := by
    cases hx : xs.length with
    | zero => exact absurd hx hne
    | succ m => exact ⟨m, rfl⟩
  rw [fyShuffle, hn]
  simp only [fyGo, if_neg hne, List.getD_cons_zero]
  rw [hn]

theorem npChoice_eq_none_iff (s : Nat) (xs : List Nat) (k : Nat) :
    npChoice s xs k = none ↔ xs.length < k := by
  unfold npChoice
  by_cases h : xs.length < k <;> simp [h]

theorem npChoice_of_le (s : Nat) (xs : List Nat) (k : Nat)
    (h : k ≤ xs.length) : npChoice s xs k = some (npTake s xs k) := by
  unfold npChoice
  rw [if_neg (Nat.not_lt.2 h)]

theorem npTake_length (s : Nat) (xs : List Nat) (k : Nat)
    (h : k ≤ xs.length) : (npTake s xs k).1.length = k := by
  simp [npTake, fyShuffle_length, h]

theorem npTake_subset (s : Nat) (xs : List Nat) (k : Nat) :
    ∀ y ∈ (npTake s xs k).1, y ∈ xs := by
  intro y hy
  have h1 : y ∈ (fyShuffle s xs).1 :=
    (List.take_sublist _ _).mem hy
  exact (fyShuffle_perm s xs).mem_iff.1 h1

theorem npTake_full (s : Nat) (xs : List Nat) (k : Nat)
    (h : xs.length = k) : (npTake s xs k).1.Perm xs := by
  have hl : (fyShuffle s xs).1.length = k := by
    rw [fyShuffle_length, h]
  unfold npTake
  rw [← hl, List.take_length]
  exact fyShuffle_perm s xs

theorem npIndex_length (xs : List α) (idx : List Nat) (d : α) :
    (npIndex xs idx d).length = idx.length := by
  simp [npIndex]

theorem npIndex_getD (xs : List α) (idx : List Nat) (d e : α) (p : Nat)
    (h : p < idx.length) :
    (npIndex xs idx d).getD p e = xs.getD (idx.getD p 0) d := by
  have hm : p < (npIndex xs idx d).length := by
    rw [npIndex_length]; exact h
  rw [List.getD_eq_getElem _ _ hm, List.getD_eq_getElem _ _ h]
  simp [npIndex]

theorem countP_range_getD (xs : List α) (q : α → Bool) (d : α) :
    (List.range xs.length).countP (fun i => q (xs.getD i d)) =
      xs.countP q := by
  induction xs with
  | nil => simp
  | cons x t ih =>
    rw [List.length_cons, List.range_succ_eq_map, List.countP_cons,
      List.countP_map]
    have h1 : (List.range t.length).countP
        ((fun i => q ((x :: t).getD i d)) ∘ Nat.succ) =
        (List.range t.length).countP (fun i => q (t.getD i d)) := by
      apply List.countP_congr
      intro a _
      simp [Function.comp, List.getD_cons_succ]
    rw [h1, ih, List.countP_cons]
    simp [List.getD_cons_zero, Nat.add_comm]

theorem npIndex_countP (xs : List α) (idx : List Nat) (d : α) (q : α → Bool)
    (h : idx.Perm (List.range xs.length)) :
    (npIndex xs idx d).countP q = xs.countP q := by
  rw [npIndex, List.countP_map, h.countP_eq]
  exact countP_range_getD xs q d

theorem npIndex_mem (xs : List α) (idx : List Nat) (d : α)
    (h : ∀ i ∈ idx, i < xs.length) :
    ∀ y ∈ npIndex xs idx d, y ∈ xs := by
  intro y hy
  obtain ⟨i, hi, rfl⟩ := List.mem_map.1 hy
  have := h i hi
  rw [List.getD_eq_getElem _ _ this]
  exact List.getElem_mem _

theorem npIndex_ne_of_getD_zero_ne (P xs ys : List Nat) (d : Nat) (n : Nat)
    (hP : P.Perm (List.range n))
    (hn : 0 < n) (hne : xs.getD 0 d ≠ ys.getD 0 d) :
    npIndex xs P d ≠ npIndex ys P d := by
  intro h
  have h0 : (0 : Nat) ∈ P := hP.mem_iff.2 (List.mem_range.2 hn)
  obtain ⟨j, hj, hj0⟩ := List.mem_iff_getElem.1 h0
  have hjx : j < (npIndex xs P d).length := by
    simpa [npIndex_length] using hj
  have hjy : j < (npIndex ys P d).length := by
    simpa [npIndex_length] using hj
  have hx1 : (npIndex xs P d)[j] = xs.getD 0 d := by
    simp [npIndex, hj0]
  have hy1 : (npIndex ys P d)[j] = ys.getD 0 d := by
    simp [npIndex, hj0]
  apply hne
  rw [← hx1, ← hy1]
  simp only [h]

set_option maxRecDepth 100000 in
theorem buildPool_eq (g l : List Nat) (s : Nat) (h : bucketsSufficient g l) :
    buildPool g l s =
      some ((npIndex (allPre g l s) (poolShuffle g l s).1 0,
             npIndex (envPre g l s) (poolShuffle g l s).1 0),
            (poolShuffle g l s).2) := by
  obtain ⟨h1, h2, h3, h4⟩ := h
  simp only [buildPool, npChoice_of_le _ _ _ h1, npChoice_of_le _ _ _ h2,
    npChoice_of_le _ _ _ h3, npChoice_of_le _ _ _ h4]
  rfl

theorem draw_ml_length (g l : List Nat) (s : Nat)
    (h : bucketsSufficient g l) : (draw_ml g l s).1.length = 4000 :=
  npTake_length _ _ _ h.1

theorem draw_mh_length (g l : List Nat) (s : Nat)
    (h : bucketsSufficient g l) : (draw_mh g l s).1.length = 16000 :=
  npTake_length _ _ _ h.2.1

theorem draw_fl_length (g l : List Nat) (s : Nat)
    (h : bucketsSufficient g l) : (draw_fl g l s).1.length = 16000 :=
  npTake_length _ _ _ h.2.2.1

theorem draw_fh_length (g l : List Nat) (s : Nat)
    (h : bucketsSufficient g l) : (draw_fh g l s).1.length = 4000 :=
  npTake_length _ _ _ h.2.2.2

theorem allPre_length (g l : List Nat) (s : Nat)
    (h : bucketsSufficient g l) : (allPre g l s).length = 40000 := by
  simp only [allPre, List.length_append, draw_ml_length g l s h,
    draw_mh_length g l s h, draw_fl_length g l s h, draw_fh_length g l s h]

theorem envPre_eq (g l : List Nat) (s : Nat) (h : bucketsSufficient g l) :
    envPre g l s =
      List.replicate 4000 0 ++ List.replicate 16000 1 ++
      List.replicate 16000 2 ++ List.replicate 4000 3 := by
  rw [envPre, draw_ml_length g l s h, draw_mh_length g l s h,
    draw_fl_length g l s h, draw_fh_length g l s h]

theorem envPre_length (g l : List Nat) (s : Nat)
    (h : bucketsSufficient g l) : (envPre g l s).length = 40000 := by
  rw [envPre_eq g l s h]
  simp only [List.length_append, List.length_replicate]

theorem poolShuffle_perm (g l : List Nat) (s : Nat)
    (h : bucketsSufficient g l) :
    (poolShuffle g l s).1.Perm (List.range 40000) := by
  rw [poolShuffle, allPre_length g l s h]
  exact fyShuffle_perm _ _

theorem poolShuffle_length (g l : List Nat) (s : Nat)
    (h : bucketsSufficient g l) :
    (poolShuffle g l s).1.length = 40000 := by
  rw [(poolShuffle_perm g l s h).length_eq, List.length_range]

theorem getD_mem (xs : List Nat) (q : Nat) (h : q < xs.length) :
    xs.getD q 0 ∈ xs := by
  rw [List.getD_eq_getElem _ _ h]
  exact List.getElem_mem h

theorem getD_replicate (a d : α) (n m : Nat) (h : m < n) :
    (List.replicate n a).getD m d = a := by
  rw [List.getD_eq_getElem _ _ (by rw [List.length_replicate]; exact h)]
  exact List.getElem_replicate _ _

theorem idxWhere_spec (g l : List Nat) (a b i : Nat)
    (h : i ∈ idxWhere g l a b) : g.getD i 0 = a ∧ l.getD i 0 = b := by
  have h2 := (List.mem_filter.1 h).2
  simpa using h2

theorem getD_append4_0 (a b c e : List α) (d : α) (q : Nat)
    (h : q < a.length) :
    (a ++ b ++ c ++ e).getD q d = a.getD q d := by
  rw [List.getD_append _ _ _ _ (by simp [List.length_append]; omega),
    List.getD_append _ _ _ _ (by simp [List.length_append]; omega),
    List.getD_append _ _ _ _ h]

theorem getD_append4_1 (a b c e : List α) (d : α) (q : Nat)
    (h1 : a.length ≤ q) (h2 : q < a.length + b.length) :
    (a ++ b ++ c ++ e).getD q d = b.getD (q - a.length) d := by
  rw [List.getD_append _ _ _ _ (by simp [List.length_append]; omega),
    List.getD_append _ _ _ _ (by simp [List.length_append]; omega),
    List.getD_append_right _ _ _ _ h1]

theorem getD_append4_2 (a b c e : List α) (d : α) (q : Nat)
    (h1 : a.length + b.length ≤ q)
    (h2 : q < a.length + b.length + c.length) :
    (a ++ b ++ c ++ e).getD q d = c.getD (q - a.length - b.length) d := by
  rw [List.getD_append _ _ _ _ (by simp [List.length_append]; omega),
    List.getD_append_right _ _ _ _ (by simp [List.length_append]; omega)]
  have he : q - (a ++ b).length = q - a.length - b.length := by
    simp [List.length_append]
    omega
  rw [he]

theorem getD_append4_3 (a b c e : List α) (d : α) (q : Nat)
    (h1 : a.length + b.length + c.length ≤ q) :
    (a ++ b ++ c ++ e).getD q d =
      e.getD (q - a.length - b.length - c.length) d := by
  rw [List.getD_append_right _ _ _ _ (by simp [List.length_append]; omega)]
  have he : q - (a ++ b ++ c).length = q - a.length - b.length - c.length := by
    simp [List.length_append]
    omega
  rw [he]

theorem pool_pre_invariant (g l : List Nat) (s : Nat)
    (h : bucketsSufficient g l) (q : Nat) (hq : q < 40000) :
    (envPre g l s).getD q 0 =
      envMap (g.getD ((allPre g l s).getD q 0) 0)
             (l.getD ((allPre g l s).getD q 0) 0) := by
  have e1 := draw_ml_length g l s h
  have e2 := draw_mh_length g l s h
  have e3 := draw_fl_length g l s h
  have e4 := draw_fh_length g l s h
  rw [envPre_eq g l s h, allPre]
  by_cases c1 : q < 4000
  · rw [getD_append4_0 _ _ _ _ _ _ (by rw [List.length_replicate]; omega),
      getD_append4_0 _ _ _ _ _ _ (by omega),
      getD_replicate _ _ _ _ c1]
    have hin1 : q < (draw_ml g l s).1.length := by omega
    have hm : (draw_ml g l s).1.getD q 0 ∈ idxWhere g l 1 0 :=
      npTake_subset _ _ _ _ (getD_mem _ _ hin1)
    obtain ⟨hg, hl⟩ := idxWhere_spec g l 1 0 _ hm
    rw [hg, hl]
    simp [envMap]
  · by_cases c2 : q < 20000
    · rw [getD_append4_1 _ _ _ _ _ _
          (by rw [List.length_replicate]; omega)
          (by simp only [List.length_replicate]; omega),
        getD_append4_1 _ _ _ _ _ _ (by omega) (by omega),
        List.length_replicate, e1,
        getD_replicate _ _ _ _ (by omega)]
      have hin2 : q - 4000 < (draw_mh g l s).1.length := by omega
      have hm : (draw_mh g l s).1.getD (q - 4000) 0 ∈ idxWhere g l 1 1 :=
        npTake_subset _ _ _ _ (getD_mem _ _ hin2)
      obtain ⟨hg, hl⟩ := idxWhere_spec g l 1 1 _ hm
      rw [hg, hl]
      simp [envMap]
    · by_cases c3 : q < 36000
      · rw [getD_append4_2 _ _ _ _ _ _
            (by simp only [List.length_replicate]; omega)
            (by simp only [List.length_replicate]; omega),
          getD_append4_2 _ _ _ _ _ _ (by omega) (by omega),
          List.length_replicate, List.length_replicate, e1, e2,
          getD_replicate _ _ _ _ (by omega)]
        have hin3 : q - 4000 - 16000 < (draw_fl g l s).1.length := by omega
        have hm : (draw_fl g l s).1.getD (q - 4000 - 16000) 0 ∈
            idxWhere g l 2 0 :=
          npTake_subset _ _ _ _ (getD_mem _ _ hin3)
        obtain ⟨hg, hl⟩ := idxWhere_spec g l 2 0 _ hm
        rw [hg, hl]
        simp [envMap]
      · rw [getD_append4_3 _ _ _ _ _ _
            (by simp only [List.length_replicate]; omega),
          getD_append4_3 _ _ _ _ _ _ (by omega),
          List.length_replicate, List.length_replicate,
          List.length_replicate, e1, e2, e3,
          getD_replicate _ _ _ _ (by omega)]
        have hin4 : q - 4000 - 16000 - 16000 < (draw_fh g l s).1.length := by
          omega
        have hm : (draw_fh g l s).1.getD (q - 4000 - 16000 - 16000) 0 ∈
            idxWhere g l 2 1 :=
          npTake_subset _ _ _ _ (getD_mem _ _ hin4)
        obtain ⟨hg, hl⟩ := idxWhere_spec g l 2 1 _ hm
        rw [hg, hl]
        simp [envMap]

/-- Claim C2: every pool record's environment id equals the fixed
(group, label) table of section 3 applied to that record's own group and
label, and the correspondence survives the common permutation applied to
the index and environment arrays: at every pool position `p`, the
environment id equals `envMap` of the group and label found at the raw
index stored at the same position `p`. -/
theorem claim_C2_pool_env_matches_record (g l : List Nat) (s : Nat)
    (h : bucketsSufficient g l) :
    ∃ pool st, buildPool g l s = some (pool, st) ∧
      pool.1.length = 40000 ∧ pool.2.length = 40000 ∧
      ∀ p, p < 40000 →
        pool.2.getD p 0 =
          envMap (g.getD (pool.1.getD p 0) 0) (l.getD (pool.1.getD p 0) 0) := by
  refine ⟨(npIndex (allPre g l s) (poolShuffle g l s).1 0,
           npIndex (envPre g l s) (poolShuffle g l s).1 0),
          (poolShuffle g l s).2, buildPool_eq g l s h, ?_, ?_, ?_⟩
  · rw [npIndex_length, poolShuffle_length g l s h]
  · rw [npIndex_length, poolShuffle_length g l s h]
  · intro p hp
    have hp2 : p < (poolShuffle g l s).1.length := by
      rw [poolShuffle_length g l s h]; exact hp
    rw [npIndex_getD _ _ _ _ _ hp2, npIndex_getD _ _ _ _ _ hp2]
    apply pool_pre_invariant g l s h
    have hmem : (poolShuffle g l s).1.getD p 0 ∈ (poolShuffle g l s).1 :=
      getD_mem _ _ hp2
    exact List.mem_range.1 ((poolShuffle_perm g l s h).mem_iff.1 hmem)

/-- Claim C3: a successful pool build has per-environment counts exactly
(4000, 16000, 16000, 4000) and total size 40000. -/
theorem claim_C3_pool_counts (g l : List Nat) (s : Nat)
    (h : bucketsSufficient g l) :
    ∃ pool st, buildPool g l s = some (pool, st) ∧
      pool.2.count 0 = 4000 ∧ pool.2.count 1 = 16000 ∧
      pool.2.count 2 = 16000 ∧ pool.2.count 3 = 4000 ∧
      pool.1.length = 40000 ∧ pool.2.length = 40000 := by
  refine ⟨(npIndex (allPre g l s) (poolShuffle g l s).1 0,
           npIndex (envPre g l s) (poolShuffle g l s).1 0),
          (poolShuffle g l s).2, buildPool_eq g l s h, ?_, ?_, ?_, ?_, ?_, ?_⟩
  all_goals
    first
    | (rw [npIndex_length, poolShuffle_length g l s h])
    | (rw [List.count_eq_countP,
        npIndex_countP _ _ _ _ (by
          rw [envPre_length g l s h]; exact poolShuffle_perm g l s h),
        ← List.count_eq_countP, envPre_eq g l s h]
       simp only [List.count_append, List.count_replicate]
       decide)

theorem torchWhere_length (envs : List Nat) (k : Nat) :
    (torchWhere envs k).length = envs.count k := by
  rw [torchWhere, ← List.countP_eq_length_filter, List.count_eq_countP]
  exact countP_range_getD envs (fun x => x == k) 0

theorem torchWhere_mem (envs : List Nat) (k p : Nat)
    (h : p ∈ torchWhere envs k) : envs.getD p 0 = k := by
  have h2 := (List.mem_filter.1 h).2
  simpa using h2

theorem uniqueSorted_perm_dedup (l : List Nat) :
    (uniqueSorted l).Perm l.dedup :=
  List.mergeSort_perm _ _

theorem uniqueSorted_nodup (l : List Nat) : (uniqueSorted l).Nodup :=
  (uniqueSorted_perm_dedup l).nodup_iff.2 (List.nodup_dedup l)

theorem mem_uniqueSorted (l : List Nat) (k : Nat) :
    k ∈ uniqueSorted l ↔ k ∈ l :=
  (uniqueSorted_perm_dedup l).mem_iff.trans List.mem_dedup

theorem shuffled_block_mem (envs : List Nat) (j s : Nat) :
    ∀ x ∈ npIndex (torchWhere envs j)
        (fyShuffle s (List.range (torchWhere envs j).length)).1 0,
      envs.getD x 0 = j := by
  intro x hx
  have hmem : x ∈ torchWhere envs j := by
    refine npIndex_mem _ _ _ ?_ x hx
    intro i hi
    have h2 : i ∈ List.range (torchWhere envs j).length :=
      (fyShuffle_perm _ _).mem_iff.1 hi
    simpa using h2
  exact torchWhere_mem envs j x hmem

theorem shuffled_block_length (envs : List Nat) (j s : Nat) :
    (npIndex (torchWhere envs j)
      (fyShuffle s (List.range (torchWhere envs j).length)).1 0).length =
      envs.count j := by
  rw [npIndex_length, fyShuffle_length, List.length_range, torchWhere_length]

theorem train_size_le (n : Nat) : 4 * n / 5 ≤ n := by
  calc 4 * n / 5 ≤ 5 * n / 5 :=
        Nat.div_le_div_right (Nat.mul_le_mul_right n (by norm_num))
    _ = n := Nat.mul_div_cancel_left n (by norm_num)

theorem splitEnvs_countP_zero (envs : List Nat) (k : Nat) :
    ∀ (ks : List Nat) (s : Nat), k ∉ ks →
      ((splitEnvs envs ks s).1.flatten.countP
        (fun p => envs.getD p 0 == k) = 0 ∧
       (splitEnvs envs ks s).2.1.flatten.countP
        (fun p => envs.getD p 0 == k) = 0) := by
  intro ks
  induction ks with
  | nil => intro s _; simp [splitEnvs]
  | cons j ks ih =>
    intro s hk
    have hjk : j ≠ k := fun he => hk (he ▸ List.mem_cons_self j ks)
    have hks : k ∉ ks := fun hm => hk (List.mem_cons_of_mem j hm)
    have hblock : ∀ x ∈ npIndex (torchWhere envs j)
        (fyShuffle s (List.range (torchWhere envs j).length)).1 0,
        ¬ (envs.getD x 0 == k) = true := by
      intro x hx
      rw [shuffled_block_mem envs j s x hx]
      simp [hjk]
    constructor
    · simp only [splitEnvs, List.flatten_cons, List.countP_append]
      rw [List.countP_eq_zero.2
          (fun x hx => hblock x ((List.take_sublist _ _).mem hx)),
        (ih _ hks).1]
    · simp only [splitEnvs, List.flatten_cons, List.countP_append]
      rw [List.countP_eq_zero.2
          (fun x hx => hblock x ((List.drop_sublist _ _).mem hx)),
        (ih _ hks).2]

theorem splitEnvs_countP_mem (envs : List Nat) (k : Nat) :
    ∀ (ks : List Nat) (s : Nat), ks.Nodup → k ∈ ks →
      ((splitEnvs envs ks s).1.flatten.countP
        (fun p => envs.getD p 0 == k) = 4 * envs.count k / 5 ∧
       (splitEnvs envs ks s).2.1.flatten.countP
        (fun p => envs.getD p 0 == k) = envs.count k - 4 * envs.count k / 5) := by
  intro ks
  induction ks with
  | nil => intro s _ hk; exact absurd hk (List.not_mem_nil k)
  | cons j ks ih =>
    intro s hnd hk
    have hnd2 := List.nodup_cons.1 hnd
    by_cases hjk : j = k
    · subst hjk
      have hks : j ∉ ks := hnd2.1
      have hall : ∀ x ∈ npIndex (torchWhere envs j)
          (fyShuffle s (List.range (torchWhere envs j).length)).1 0,
          (envs.getD x 0 == j) = true := by
        intro x hx
        rw [shuffled_block_mem envs j s x hx]
        simp
      have hlen := shuffled_block_length envs j s
      have hle : 4 * (torchWhere envs j).length / 5 ≤
          (npIndex (torchWhere envs j)
            (fyShuffle s (List.range (torchWhere envs j).length)).1 0).length := by
        rw [hlen, torchWhere_length]
        exact train_size_le _
      constructor
      · simp only [splitEnvs, List.flatten_cons, List.countP_append]
        rw [List.countP_eq_length.2
            (fun x hx => hall x ((List.take_sublist _ _).mem hx)),
          (splitEnvs_countP_zero envs j _ _ hks).1, List.length_take,
          Nat.min_eq_left hle, torchWhere_length]
        omega
      · simp only [splitEnvs, List.flatten_cons, List.countP_append]
        rw [List.countP_eq_length.2
            (fun x hx => hall x ((List.drop_sublist _ _).mem hx)),
          (splitEnvs_countP_zero envs j _ _ hks).2, List.length_drop,
          hlen, torchWhere_length]
        omega
    · have hkks : k ∈ ks := by
        rcases List.mem_cons.1 hk with h | h
        · exact absurd h.symm hjk
        · exact h
      have hblock : ∀ x ∈ npIndex (torchWhere envs j)
          (fyShuffle s (List.range (torchWhere envs j).length)).1 0,
          ¬ (envs.getD x 0 == k) = true := by
        intro x hx
        rw [shuffled_block_mem envs j s x hx]
        simp [hjk]
      constructor
      · simp only [splitEnvs, List.flatten_cons, List.countP_append]
        rw [List.countP_eq_zero.2
            (fun x hx => hblock x ((List.take_sublist _ _).mem hx)),
          (ih _ hnd2.2 hkks).1]
        omega
      · simp only [splitEnvs, List.flatten_cons, List.countP_append]
        rw [List.countP_eq_zero.2
            (fun x hx => hblock x ((List.drop_sublist _ _).mem hx)),
          (ih _ hnd2.2 hkks).2]
        omega

theorem splitEnvs_length_sum (envs : List Nat) :
    ∀ (ks : List Nat) (s : Nat),
      (splitEnvs envs ks s).1.flatten.length +
      (splitEnvs envs ks s).2.1.flatten.length =
        (ks.map (fun j => envs.count j)).sum := by
  intro ks
  induction ks with
  | nil => intro s; simp [splitEnvs]
  | cons j ks ih =>
    intro s
    simp only [splitEnvs, List.flatten_cons, List.length_append,
      List.map_cons, List.sum_cons]
    have hlen := shuffled_block_length envs j s
    have hle : 4 * (torchWhere envs j).length / 5 ≤ envs.count j := by
      rw [torchWhere_length]
      exact train_size_le _
    rw [List.length_take, List.length_drop, hlen, Nat.min_eq_left hle]
    have hih := ih ((fyShuffle s (List.range (torchWhere envs j).length)).2)
    omega

/-- Claim C4: for every environment id `k` present in the pool, the
stratified splitter puts exactly `4 * count_k / 5` (the floor of
`0.8 * count_k`) of that environment's records into train and the
remaining `count_k - 4 * count_k / 5` into validation, and the train and
validation lengths sum to the pool length. -/
theorem claim_C4_stratified_counts (envs : List Nat) (tS k : Nat)
    (hk : k ∈ envs) :
    (stratifiedSplit envs tS).1.countP (fun p => envs.getD p 0 == k) =
      4 * envs.count k / 5 ∧
    (stratifiedSplit envs tS).2.1.countP (fun p => envs.getD p 0 == k) =
      envs.count k - 4 * envs.count k / 5 ∧
    (stratifiedSplit envs tS).1.length + (stratifiedSplit envs tS).2.1.length =
      envs.length := by
  have hmem : k ∈ uniqueSorted envs := (mem_uniqueSorted envs k).2 hk
  have hnd := uniqueSorted_nodup envs
  have hcount := splitEnvs_countP_mem envs k (uniqueSorted envs) tS hnd hmem
  refine ⟨?_, ?_, ?_⟩
  · rw [stratifiedSplit]
    rw [npIndex_countP _ _ _ _ (fyShuffle_perm _ _)]
    exact hcount.1
  · rw [stratifiedSplit]
    rw [npIndex_countP _ _ _ _ (fyShuffle_perm _ _)]
    exact hcount.2
  · rw [stratifiedSplit]
    simp only [npIndex_length, fyShuffle_length, List.length_range]
    rw [splitEnvs_length_sum envs (uniqueSorted envs) tS,
      ((uniqueSorted_perm_dedup envs).map (fun j => envs.count j)).sum_eq]
    exact List.sum_map_count_dedup_eq_length envs

/-- Witness for claim C4 at the concrete pool environment array
`[0, 1, 1, 0, 2]` and environment id `1`. -/
theorem claim_C4_stratified_counts_witness :
    (stratifiedSplit [0, 1, 1, 0, 2] 0).1.countP
        (fun p => ([0, 1, 1, 0, 2] : List Nat).getD p 0 == 1) =
      4 * ([0, 1, 1, 0, 2] : List Nat).count 1 / 5 ∧
    (stratifiedSplit [0, 1, 1, 0, 2] 0).2.1.countP
        (fun p => ([0, 1, 1, 0, 2] : List Nat).getD p 0 == 1) =
      ([0, 1, 1, 0, 2] : List Nat).count 1 -
        4 * ([0, 1, 1, 0, 2] : List Nat).count 1 / 5 ∧
    (stratifiedSplit [0, 1, 1, 0, 2] 0).1.length +
      (stratifiedSplit [0, 1, 1, 0, 2] 0).2.1.length =
      ([0, 1, 1, 0, 2] : List Nat).length :=
  claim_C4_stratified_counts [0, 1, 1, 0, 2] 0 1 (by decide)

theorem getD_map_range (f : Nat → α) (d : α) (n i : Nat) (h : i < n) :
    ((List.range n).map f).getD i d = f i := by
  rw [List.getD_eq_getElem _ _ (by simpa using h)]
  simp

theorem getD_take (l : List α) (n m : Nat) (d : α) (h : m < n) :
    (l.take n).getD m d = l.getD m d := by
  rw [List.getD_eq_getElem?_getD, List.getD_eq_getElem?_getD,
    List.getElem?_take, if_pos h]

theorem remapTestEnvs_length (tF : List (List Int)) (tL : List Nat) :
    (remapTestEnvs tF tL).length = tF.length := by
  rw [remapTestEnvs, List.length_map, List.length_range]

theorem filter_range_interval (N a b : Nat) (p : Nat → Bool) (hab : a ≤ b)
    (hb : b ≤ N)
    (hp : ∀ i, i < N → ((p i = true) ↔ (a ≤ i ∧ i < b))) :
    (List.range N).filter p = List.range' a (b - a) := by
  have h1 : List.range' 0 b 1 = List.range' 0 a 1 ++ List.range' a (b - a) 1 := by
    have h := List.range'_append 0 a (b - a) 1
    rw [show 0 + 1 * a = a by omega, show b - a + a = b by omega] at h
    exact h.symm
  have h2 : List.range' 0 N 1 = List.range' 0 b 1 ++ List.range' b (N - b) 1 := by
    have h := List.range'_append 0 b (N - b) 1
    rw [show 0 + 1 * b = b by omega, show N - b + b = N by omega] at h
    exact h.symm
  have hfa : (List.range' 0 a 1).filter p = [] := by
    rw [List.filter_eq_nil_iff]
    intro x hx
    rw [List.mem_range'_1] at hx
    rw [hp x (by omega)]
    omega
  have hfb : (List.range' a (b - a) 1).filter p = List.range' a (b - a) 1 := by
    rw [List.filter_eq_self]
    intro x hx
    rw [List.mem_range'_1] at hx
    rw [hp x (by omega)]
    omega
  have hfc : (List.range' b (N - b) 1).filter p = [] := by
    rw [List.filter_eq_nil_iff]
    intro x hx
    rw [List.mem_range'_1] at hx
    rw [hp x (by omega)]
    omega
  rw [List.range_eq_range', h2, h1, List.filter_append, List.filter_append,
    hfa, hfb, hfc]
  simp

theorem cGroup_length : cGroup.length = 40000 := by
  unfold cGroup
  rw [List.length_map, List.length_range]

theorem cGroup_getD (i : Nat) (h : i < 40000) :
    cGroup.getD i 0 = if i < 20000 then 1 else 2 := by
  unfold cGroup
  exact getD_map_range _ _ _ _ h

theorem cLabels_getD (i : Nat) (h : i < 40000) :
    cLabels.getD i 0 =
      (if i < 4000 then 0 else if i < 20000 then 1 else
       if i < 36000 then 0 else 1) := by
  unfold cLabels
  exact getD_map_range _ _ _ _ h

theorem cBucket_ml : idxWhere cGroup cLabels 1 0 = List.range' 0 4000 := by
  have hp : ∀ i, i < 40000 →
      ((cGroup.getD i 0 == 1 && cLabels.getD i 0 == 0) = true ↔
        (0 ≤ i ∧ i < 4000)) := by
    intro i hi
    rw [cGroup_getD i hi, cLabels_getD i hi]
    simp only [Bool.and_eq_true, beq_iff_eq]
    split_ifs <;> first | omega | (simp; omega) | simp
  have h := filter_range_interval 40000 0 4000 _ (by omega) (by omega) hp
  unfold idxWhere
  rw [cGroup_length]
  simpa using h

theorem cBucket_mh : idxWhere cGroup cLabels 1 1 = List.range' 4000 16000 := by
  have hp : ∀ i, i < 40000 →
      ((cGroup.getD i 0 == 1 && cLabels.getD i 0 == 1) = true ↔
        (4000 ≤ i ∧ i < 20000)) := by
    intro i hi
    rw [cGroup_getD i hi, cLabels_getD i hi]
    simp only [Bool.and_eq_true, beq_iff_eq]
    split_ifs <;> first | omega | (simp; omega) | simp
  have h := filter_range_interval 40000 4000 20000 _ (by omega) (by omega) hp
  unfold idxWhere
  rw [cGroup_length]
  simpa using h

theorem cBucket_fl : idxWhere cGroup cLabels 2 0 = List.range' 20000 16000 := by
  have hp : ∀ i, i < 40000 →
      ((cGroup.getD i 0 == 2 && cLabels.getD i 0 == 0) = true ↔
        (20000 ≤ i ∧ i < 36000)) := by
    intro i hi
    rw [cGroup_getD i hi, cLabels_getD i hi]
    simp only [Bool.and_eq_true, beq_iff_eq]
    split_ifs <;> first | omega | (simp; omega) | simp
  have h := filter_range_interval 40000 20000 36000 _ (by omega) (by omega) hp
  unfold idxWhere
  rw [cGroup_length]
  simpa using h

theorem cBucket_fh : idxWhere cGroup cLabels 2 1 = List.range' 36000 4000 := by
  have hp : ∀ i, i < 40000 →
      ((cGroup.getD i 0 == 2 && cLabels.getD i 0 == 1) = true ↔
        (36000 ≤ i ∧ i < 40000)) := by
    intro i hi
    rw [cGroup_getD i hi, cLabels_getD i hi]
    simp only [Bool.and_eq_true, beq_iff_eq]
    split_ifs <;> first | omega | (simp; omega) | simp
  have h := filter_range_interval 40000 36000 40000 _ (by omega) (by omega) hp
  unfold idxWhere
  rw [cGroup_length]
  simpa using h

theorem cBuckets : bucketsSufficient cGroup cLabels := by
  refine ⟨?_, ?_, ?_, ?_⟩
  · rw [cBucket_ml, List.length_range']
  · rw [cBucket_mh, List.length_range']
  · rw [cBucket_fl, List.length_range']
  · rw [cBucket_fh, List.length_range']

/-- Claim C5: the test reconciler computes each record's environment id
purely from that record's own SEX feature column (index 3) and its own
label via the section 3 mapping (the sibling's environment labels are not
an input of `remapTestEnvs` at all), and any (gender, income) combination
outside the four defined cases gets the default id 0. -/
theorem claim_C5_test_env_recompute (tF : List (List Int)) (tL : List Nat)
    (i : Nat) (hi : i < tF.length) :
    (remapTestEnvs tF tL).getD i 0 =
      envOf ((tF.getD i []).getD 3 0) (tL.getD i 0) ∧
    ∀ (gender : Int) (income : Nat),
      ¬ ((gender = 1 ∨ gender = 2) ∧ (income = 0 ∨ income = 1)) →
      envOf gender income = 0 := by
  constructor
  · rw [remapTestEnvs, getD_map_range _ _ _ _ hi]
  · intro gender income hno
    unfold envOf
    split_ifs with h1 h2 h3 h4
    · rfl
    · exact absurd ⟨Or.inl h2.1, Or.inr h2.2⟩ hno
    · exact absurd ⟨Or.inr h3.1, Or.inl h3.2⟩ hno
    · exact absurd ⟨Or.inr h4.1, Or.inr h4.2⟩ hno
    · rfl

/-- Witness for claim C5 at a one-record test split whose SEX column is 2
and label 0 (environment 2), plus an out-of-table pair (3, 7). -/
theorem claim_C5_test_env_recompute_witness :
    ((remapTestEnvs [[9, 9, 9, 2, 9]] [0]).getD 0 0 =
      envOf ((([[9, 9, 9, 2, 9]] : List (List Int)).getD 0 []).getD 3 0)
            (([0] : List Nat).getD 0 0) ∧
    ∀ (gender : Int) (income : Nat),
      ¬ ((gender = 1 ∨ gender = 2) ∧ (income = 0 ∨ income = 1)) →
      envOf gender income = 0) :=
  claim_C5_test_env_recompute [[9, 9, 9, 2, 9]] [0] 0 (by decide)

/-- Claim C6: subsampling a bucket fails exactly when the bucket holds
strictly fewer records than the target, and a bucket holding exactly the
target succeeds with a sample of the full target size that contains every
available record (and nothing else), since it draws without replacement. -/
theorem claim_C6_subsample_exact (s : Nat) (xs : List Nat) (k : Nat) :
    (npChoice s xs k = none ↔ xs.length < k) ∧
    (xs.length = k →
      ∃ ys st, npChoice s xs k = some (ys, st) ∧ ys.length = k ∧
        (∀ y ∈ ys, y ∈ xs) ∧ (∀ x ∈ xs, x ∈ ys)) := by
  refine ⟨npChoice_eq_none_iff s xs k, ?_⟩
  intro he
  refine ⟨(npTake s xs k).1, (npTake s xs k).2, ?_,
    npTake_length _ _ _ (by omega), npTake_subset _ _ _, ?_⟩
  · rw [npChoice_of_le _ _ _ (by omega)]
  · intro x hx
    exact (npTake_full s xs k he).mem_iff.2 hx

/-- Witness for claim C6 at the two-element bucket `[5, 7]` with target 2:
the boundary case succeeds with full coverage. -/
theorem claim_C6_subsample_exact_witness :
    (npChoice 0 [5, 7] 2 = none ↔ ([5, 7] : List Nat).length < 2) ∧
    (([5, 7] : List Nat).length = 2 →
      ∃ ys st, npChoice 0 [5, 7] 2 = some (ys, st) ∧ ys.length = 2 ∧
        (∀ y ∈ ys, y ∈ ([5, 7] : List Nat)) ∧
        (∀ x ∈ ([5, 7] : List Nat), x ∈ ys)) :=
  claim_C6_subsample_exact 0 [5, 7] 2

theorem prepare_ok_fields (root : String) (features : List (List Int))
    (labels group : List Nat) (npS torchS : Nat) (fs fs' : FS)
    (hok : prepare_four_env_folktables root features labels group npS torchS
      fs = .ok fs') :
    fs'.train.isSome = true ∧ fs'.val.isSome = true ∧
      fs'.test.isSome = true := by
  unfold prepare_four_env_folktables at hok
  by_cases hc : (fs.train.isSome && fs.val.isSome && fs.test.isSome) = true
  · rw [if_pos hc] at hok
    rw [Except.ok.injEq] at hok
    subst hok
    simp only [Bool.and_eq_true] at hc
    exact ⟨hc.1.1, hc.1.2, hc.2⟩
  · rw [if_neg hc] at hok
    cases hbp : buildPool group labels npS with
    | none =>
      simp only [hbp] at hok
      exact Except.noConfusion hok
    | some pool =>
      simp only [hbp] at hok
      cases hsib : fs.siblingTest with
      | none =>
        simp only [hsib] at hok
        exact Except.noConfusion hok
      | some sib =>
        simp only [hsib, Except.ok.injEq] at hok
        subst hok
        simp

/-- Claim C8: preparation is idempotent.  When all three artifacts exist
the call returns the filesystem unchanged, and any filesystem produced by
a successful preparation satisfies that check, so a second invocation
(with any other inputs) returns it unchanged. -/
theorem claim_C8_prepare_idempotent (root root2 : String)
    (features features2 : List (List Int)) (labels labels2 : List Nat)
    (group group2 : List Nat) (npS npS2 torchS torchS2 : Nat) (fs : FS) :
    ((fs.train.isSome && fs.val.isSome && fs.test.isSome) = true →
      prepare_four_env_folktables root features labels group npS torchS fs =
        .ok fs) ∧
    (∀ fs', prepare_four_env_folktables root features labels group npS torchS
        fs = .ok fs' →
      prepare_four_env_folktables root2 features2 labels2 group2 npS2 torchS2
        fs' = .ok fs') := by
  constructor
  · intro hc
    unfold prepare_four_env_folktables
    rw [if_pos hc]
  · intro fs' hok
    obtain ⟨h1, h2, h3⟩ :=
      prepare_ok_fields root features labels group npS torchS fs fs' hok
    unfold prepare_four_env_folktables
    rw [if_pos (by simp [h1, h2, h3])]

/-- Witness for claim C8: on a filesystem with all three artifacts
present, preparation returns it unchanged, and so does a repeated
invocation with different arguments. -/
theorem claim_C8_prepare_idempotent_witness :
    prepare_four_env_folktables "data" [] [] [] 0 0 cFSPrepared =
      .ok cFSPrepared ∧
    prepare_four_env_folktables "data2" [[1]] [1] [1] 7 9 cFSPrepared =
      .ok cFSPrepared :=
  ⟨(claim_C8_prepare_idempotent "data" "data" [] [] [] [] [] [] 0 0 0 0
      cFSPrepared).1 rfl,
   (claim_C8_prepare_idempotent "data" "data2" [] [[1]] [] [1] [] [1] 0 7 0 9
      cFSPrepared).2 cFSPrepared
     ((claim_C8_prepare_idempotent "data" "data" [] [] [] [] [] [] 0 0 0 0
        cFSPrepared).1 rfl)⟩

/-- Claim C9: when the preparation actually runs (the artifacts are not
all present), the buckets suffice, and the sibling test artifact is
absent, preparation fails with `missingDependency` carrying the sibling
path, and no filesystem is produced (no fallback test split of any
kind). -/
theorem claim_C9_missing_sibling (root : String) (features : List (List Int))
    (labels group : List Nat) (npS torchS : Nat) (fs : FS)
    (hnp : (fs.train.isSome && fs.val.isSome && fs.test.isSome) = false)
    (hsib : fs.siblingTest = none)
    (hs : bucketsSufficient group labels) :
    prepare_four_env_folktables root features labels group npS torchS fs =
      .error (.missingDependency (root ++ "/synthetic_folktables/test.pt")) := by
  unfold prepare_four_env_folktables
  rw [if_neg (by rw [hnp]; exact Bool.false_ne_true)]
  simp only [buildPool_eq group labels npS hs, hsib]

/-- Witness for claim C9 at the concrete raw arrays and an empty
filesystem without the sibling artifact. -/
theorem claim_C9_missing_sibling_witness :
    prepare_four_env_folktables "root" [] cLabels cGroup 0 0 cFSNoSibling =
      .error (.missingDependency ("root" ++ "/synthetic_folktables/test.pt")) :=
  claim_C9_missing_sibling "root" [] cLabels cGroup 0 0 cFSNoSibling rfl rfl
    cBuckets

/-- Claim C7: on a run that performs preparation with the sibling present,
the persisted test split keeps the sibling's features and labels exactly
(in particular the same record count) and its environment ids are the
recomputation `remapTestEnvs` of those features and labels — a function
that never reads the sibling's stored environment ids. -/
theorem claim_C7_test_frame (root : String) (features : List (List Int))
    (labels group : List Nat) (npS torchS : Nat) (fs : FS) (sib : Split)
    (hnp : (fs.train.isSome && fs.val.isSome && fs.test.isSome) = false)
    (hsib : fs.siblingTest = some sib)
    (hs : bucketsSufficient group labels) :
    ∃ fs', prepare_four_env_folktables root features labels group npS torchS
        fs = .ok fs' ∧
      fs'.test = some ⟨sib.features, sib.labels,
        remapTestEnvs sib.features sib.labels⟩ ∧
      (remapTestEnvs sib.features sib.labels).length = sib.features.length := by
  unfold prepare_four_env_folktables
  rw [if_neg (by rw [hnp]; exact Bool.false_ne_true)]
  simp only [buildPool_eq group labels npS hs, hsib]
  exact ⟨_, rfl, rfl, remapTestEnvs_length _ _⟩

/-- Witness for claim C7 at the concrete raw arrays, an empty filesystem,
and the one-record sibling split whose stored environment id 7 disagrees
with the remapping. -/
theorem claim_C7_test_frame_witness :
    ∃ fs', prepare_four_env_folktables "root" [] cLabels cGroup 0 0 cFS =
        .ok fs' ∧
      fs'.test = some ⟨cSibling.features, cSibling.labels,
        remapTestEnvs cSibling.features cSibling.labels⟩ ∧
      (remapTestEnvs cSibling.features cSibling.labels).length =
        cSibling.features.length :=
  claim_C7_test_frame "root" [] cLabels cGroup 0 0 cFS cSibling rfl rfl
    cBuckets

/-- Claim C10: every env argument outside train, val, test, all_train is
rejected with the RuntimeError message of line 47, while `all_train` is
accepted and routed to an `all_train` artifact even though preparation
only ever checks for and writes the train, val and test artifacts. -/
theorem claim_C10_env_dispatch (env : String)
    (h : env ∉ (["train", "val", "test", "all_train"] : List String)) :
    selectEnvArtifact env =
      .error (env ++
        " env unknown. Valid envs are train, val, test, and all_train") ∧
    selectEnvArtifact "all_train" = .ok "all_train" ∧
    "all_train.pt" ∉ preparedArtifactNames := by
  simp only [List.mem_cons, not_or, List.not_mem_nil] at h
  obtain ⟨h1, h2, h3, h4, -⟩ := h
  refine ⟨?_, by simp [selectEnvArtifact], by decide⟩
  unfold selectEnvArtifact
  rw [if_neg (by simp [h1, h2, h3]), if_neg h4]

/-- Witness for claim C10 at the invalid argument `validation`. -/
theorem claim_C10_env_dispatch_witness :
    selectEnvArtifact "validation" =
      .error ("validation" ++
        " env unknown. Valid envs are train, val, test, and all_train") ∧
    selectEnvArtifact "all_train" = .ok "all_train" ∧
    "all_train.pt" ∉ preparedArtifactNames :=
  claim_C10_env_dispatch "validation" (by decide)

theorem allPre_getD_zero (g l : List Nat) (s : Nat)
    (h : bucketsSufficient g l) :
    (allPre g l s).getD 0 0 =
      (idxWhere g l 1 0).getD (lcg s % (idxWhere g l 1 0).length) 0 := by
  have e1 := draw_ml_length g l s h
  rw [allPre, getD_append4_0 _ _ _ _ _ _ (by omega)]
  show ((fyShuffle s (idxWhere g l 1 0)).1.take 4000).getD 0 0 = _
  rw [getD_take _ _ _ _ (by omega)]
  have hlen : 0 < (idxWhere g l 1 0).length := by
    have h1 := h.1
    omega
  exact fyShuffle_getD_zero s _ 0 (List.length_pos.1 hlen)

theorem allPre_head_c (s : Nat) :
    (allPre cGroup cLabels s).getD 0 0 = lcg s % 4000 := by
  rw [allPre_getD_zero cGroup cLabels s cBuckets, cBucket_ml,
    List.length_range']
  have hm : lcg s % 4000 < 4000 := Nat.mod_lt _ (by omega)
  rw [List.getD_eq_getElem _ _ (by rw [List.length_range']; exact hm),
    List.getElem_range'_1]
  omega

/-- Claim C1 (amended): only the pool shuffle is governed by the fixed
seed, because `np.random.seed(42)` runs after the per-bucket subsampling
and the train/val shuffles use the separate unseeded torch generator.
What two cache-cleared runs on the same raw input are guaranteed to share
is the pool's environment-id sequence: it is identical for any two
ambient numpy states, since the pre-shuffle environment blocks have fixed
lengths and the common shuffle permutation is drawn from the seeded
state. -/
theorem claim_C1_amended_env_sequence (g l : List Nat) (s1 s2 : Nat)
    (h : bucketsSufficient g l) :
    ∃ p1 e1 t1 p2 e2 t2,
      buildPool g l s1 = some ((p1, e1), t1) ∧
      buildPool g l s2 = some ((p2, e2), t2) ∧ e1 = e2 := by
  refine ⟨_, _, _, _, _, _, buildPool_eq g l s1 h, buildPool_eq g l s2 h, ?_⟩
  have hP : poolShuffle g l s1 = poolShuffle g l s2 := by
    unfold poolShuffle
    rw [allPre_length g l s1 h, allPre_length g l s2 h]
  rw [envPre_eq g l s1 h, envPre_eq g l s2 h, hP]

/-- Witness for the amended claim C1 at the concrete raw arrays and two
different ambient numpy states. -/
theorem claim_C1_amended_env_sequence_witness :
    ∃ p1 e1 t1 p2 e2 t2,
      buildPool cGroup cLabels 0 = some ((p1, e1), t1) ∧
      buildPool cGroup cLabels 5 = some ((p2, e2), t2) ∧ e1 = e2 :=
  claim_C1_amended_env_sequence cGroup cLabels 0 5 cBuckets

/-- Counterexample to claim C1 as stated: two preparation runs on the
same raw input arrays that differ only in the ambient numpy generator
state at entry produce different pools, because the per-bucket
subsampling runs before `np.random.seed(42)` and therefore consumes the
ambient state.  The two pools differ in which raw records they sample,
so the partitions are not identical. -/
theorem claim_C1_counterexample :
    buildPool cGroup cLabels 0 ≠ buildPool cGroup cLabels 1 := by
  intro heq
  rw [buildPool_eq cGroup cLabels 0 cBuckets,
    buildPool_eq cGroup cLabels 1 cBuckets] at heq
  simp only [Option.some.injEq, Prod.mk.injEq] at heq
  have hA := heq.1.1
  have hP : poolShuffle cGroup cLabels 0 = poolShuffle cGroup cLabels 1 := by
    unfold poolShuffle
    rw [allPre_length cGroup cLabels 0 cBuckets,
      allPre_length cGroup cLabels 1 cBuckets]
  rw [hP] at hA
  refine npIndex_ne_of_getD_zero_ne (poolShuffle cGroup cLabels 1).1
    (allPre cGroup cLabels 0) (allPre cGroup cLabels 1) 0 40000
    (poolShuffle_perm cGroup cLabels 1 cBuckets) (by omega) ?_ hA
  rw [allPre_head_c 0, allPre_head_c 1]
  decide

/-- Witness for claim C2 at the concrete raw arrays. -/
theorem claim_C2_pool_env_matches_record_witness :
    ∃ pool st, buildPool cGroup cLabels 0 = some (pool, st) ∧
      pool.1.length = 40000 ∧ pool.2.length = 40000 ∧
      ∀ p, p < 40000 →
        pool.2.getD p 0 =
          envMap (cGroup.getD (pool.1.getD p 0) 0)
                 (cLabels.getD (pool.1.getD p 0) 0) :=
  claim_C2_pool_env_matches_record cGroup cLabels 0 cBuckets

/-- Witness for claim C3 at the concrete raw arrays. -/
theorem claim_C3_pool_counts_witness :
    ∃ pool st, buildPool cGroup cLabels 0 = some (pool, st) ∧
      pool.2.count 0 = 4000 ∧ pool.2.count 1 = 16000 ∧
      pool.2.count 2 = 16000 ∧ pool.2.count 3 = 4000 ∧
      pool.1.length = 40000 ∧ pool.2.length = 40000 :=
  claim_C3_pool_counts cGroup cLabels 0 cBuckets

end FourEnv
